import Mathlib

set_option maxRecDepth 10000

/-!
Verification of the hex-dump library (`src/lib.rs`) of the `hex` repository.

The development shallowly embeds the core of the library:
  * `Hex.Line` and `Hex.Page` mirror the `Line` and `Page` structs;
  * `Hex.hex_octal`, `Hex.hex_lower_hex`, `Hex.hex_upper_hex`,
    `Hex.hex_binary` mirror the per-byte codec functions, which are
    Rust `format!` calls with the `#0w` (alternate, zero-filled,
    minimum-width) templates `{:#06o}`, `{:#04x}`, `{:#04X}`, `{:#010b}`;
  * `Hex.buf_to_array` mirrors `buf_to_array`, the paginator;
  * `Hex.buf_to_array_io` is the same loop over a source whose reads can
    fail, mirroring the `b.unwrap()` call on each read result;
  * `Hex.sidebar_char` mirrors the ASCII-sidebar classification inside
    `run`;
  * `Hex.array_line_tokens` / `Hex.array_body_tokens` mirror the
    byte-token emission loop of the array-literal output mode of `run`.

Bytes are modelled as `Nat` values below 256 and the `u64` counters as
`Nat` (they only ever grow by single increments from 0, so no wrap-around
is reachable for any physically possible input).
-/

set_option autoImplicit false

namespace Hex

/-- Mirror of the `Line` struct: offset, raw bytes (`hex_body : Vec<u8>`),
ascii chars, and the stored byte count (`bytes : u64`). -/
structure Line where
  offset : Nat
  hex_body : List Nat
  ascii : List Char
  bytes : Nat
deriving DecidableEq, Repr

/-- Mirror of `Line::new()`. -/
def Line.new : Line := ⟨0, [], [], 0⟩

/-- Mirror of the `Page` struct: offset, rows (`body : Vec<Line>`), and the
stored total byte count (`bytes : u64`). -/
structure Page where
  offset : Nat
  body : List Line
  bytes : Nat
deriving DecidableEq, Repr

/-- Mirror of `Page::new()`. -/
def Page.new : Page := ⟨0, [], 0⟩

/-- The loop body of `buf_to_array`, iterating over the remaining source
bytes with the running `column_count`, the page built so far and the line
being filled.  Each iteration increments `line.bytes`, `page.bytes`,
pushes the byte onto `line.hex_body` and bumps `column_count`; when
`column_count >= column_width` the line is pushed and a fresh line
started; then the loop breaks (pushing the current line, which is the
fresh empty one if the column check just fired) when
`page.bytes == buf_len || 65535 == buf_len` — note that the source
compares `buf_len` itself, not `page.bytes`, against
`<u16>::max_value()`.  Returns the page together with the unread
remainder of the source. -/
def buf_to_array_loop (column_width buf_len : Nat) :
    List Nat → Nat → Page → Line → Page × List Nat
  | [], _, page, _ => (page, [])
  | b :: rest, column_count, page, line =>
    let line1 : Line :=
      { line with bytes := line.bytes + 1, hex_body := line.hex_body ++ [b] }
    let page1 : Page := { page with bytes := page.bytes + 1 }
    if column_count + 1 ≥ column_width then
      -- the line is closed at the column boundary; the in-progress line
      -- is now `Line.new`, which is what the break condition pushes
      if page1.bytes = buf_len ∨ 65535 = buf_len then
        ({ page1 with body := page1.body ++ [line1] ++ [Line.new] }, rest)
      else
        buf_to_array_loop column_width buf_len rest 0
          { page1 with body := page1.body ++ [line1] } Line.new
    else
      if page1.bytes = buf_len ∨ 65535 = buf_len then
        ({ page1 with body := page1.body ++ [line1] }, rest)
      else
        buf_to_array_loop column_width buf_len rest (column_count + 1) page1 line1

/-- Mirror of `buf_to_array(buf, buf_len, column_width)` on an error-free
source, given as the list of bytes the reader would yield.  The function
in the source returns `Ok(page)`; the consumed reader is modelled by also
returning the unread remainder of the source. -/
def buf_to_array (src : List Nat) (buf_len column_width : Nat) : Page × List Nat :=
  buf_to_array_loop column_width buf_len src 0 Page.new Line.new

/-- `buf_to_array` over a source whose reads can fail
(`Except.error` models an `Err` item of the `Read::bytes` iterator).
The loop calls `b.unwrap()` on every read result, which panics on a read
error; the panic is modelled as `none`.  No `Error::Io` value is ever
returned: the only non-panic outcome is the page (the source's
unconditional `Ok(page)`). -/
def buf_to_array_loop_io (column_width buf_len : Nat) :
    List (Except Unit Nat) → Nat → Page → Line → Option (Page × List (Except Unit Nat))
  | [], _, page, _ => some (page, [])
  | Except.error _ :: _, _, _, _ => none
  | Except.ok b :: rest, column_count, page, line =>
    let line1 : Line :=
      { line with bytes := line.bytes + 1, hex_body := line.hex_body ++ [b] }
    let page1 : Page := { page with bytes := page.bytes + 1 }
    if column_count + 1 ≥ column_width then
      if page1.bytes = buf_len ∨ 65535 = buf_len then
        some ({ page1 with body := page1.body ++ [line1] ++ [Line.new] }, rest)
      else
        buf_to_array_loop_io column_width buf_len rest 0
          { page1 with body := page1.body ++ [line1] } Line.new
    else
      if page1.bytes = buf_len ∨ 65535 = buf_len then
        some ({ page1 with body := page1.body ++ [line1] }, rest)
      else
        buf_to_array_loop_io column_width buf_len rest (column_count + 1) page1 line1

/-- `buf_to_array` on a fallible source; `none` models the panic of
`b.unwrap()` on the first read error. -/
def buf_to_array_io (src : List (Except Unit Nat)) (buf_len column_width : Nat) :
    Option (Page × List (Except Unit Nat)) :=
  buf_to_array_loop_io column_width buf_len src 0 Page.new Line.new

/-- Lowercase digit character, as produced by Rust's `Octal`, `LowerHex`
and `Binary` formatting (0-9 then a-f). -/
def digit_char_lower (n : Nat) : Char :=
  if n < 10 then Char.ofNat (48 + n) else Char.ofNat (87 + n)

/-- Uppercase digit character, as produced by Rust's `UpperHex`
formatting (0-9 then A-F). -/
def digit_char_upper (n : Nat) : Char :=
  if n < 10 then Char.ofNat (48 + n) else Char.ofNat (55 + n)

/-- Minimal base-`base` digit string of `n` (most significant first,
a single `0` for zero), with explicit fuel for structural recursion. -/
def nat_digits (base : Nat) (dc : Nat → Char) : Nat → Nat → List Char
  | 0, _ => []
  | fuel + 1, n =>
    if n < base then [dc n]
    else nat_digits base dc fuel (n / base) ++ [dc (n % base)]

/-- The digit string of `n` in base `base` (fuel `n + 1` always
suffices, since the argument shrinks by at least a factor 2 per step). -/
def nat_to_base_string (base : Nat) (dc : Nat → Char) (n : Nat) : String :=
  String.mk (nat_digits base dc (n + 1) n)

/-- Rust's alternate zero-filled numeric formatting `{:#0Wq}`: the base
prefix, then zeros up to the minimum total width `width`, then the
digits.  (When prefix and digits already reach the width, no fill is
inserted.) -/
def rust_alt_fill (pre digits : String) (width : Nat) : String :=
  pre ++ String.mk (List.replicate (width - (pre.length + digits.length)) '0') ++ digits

/-- Mirror of `hex_octal`: `format!("{:#06o}", b)`. -/
def hex_octal (b : Nat) : String :=
  rust_alt_fill "0o" (nat_to_base_string 8 digit_char_lower b) 6

/-- Mirror of `hex_lower_hex`: `format!("{:#04x}", b)`. -/
def hex_lower_hex (b : Nat) : String :=
  rust_alt_fill "0x" (nat_to_base_string 16 digit_char_lower b) 4

/-- Mirror of `hex_upper_hex`: `format!("{:#04X}", b)` (Rust keeps the
lowercase `0x` prefix and uppercases only the digits). -/
def hex_upper_hex (b : Nat) : String :=
  rust_alt_fill "0x" (nat_to_base_string 16 digit_char_upper b) 4

/-- Mirror of `hex_binary`: `format!("{:#010b}", b)`. -/
def hex_binary (b : Nat) : String :=
  rust_alt_fill "0b" (nat_to_base_string 2 digit_char_lower b) 10

/-- The ASCII-sidebar classification inside `run`:
`if *hex > 31 && *hex < 127 { push(*hex as char) } else { push('.') }`. -/
def sidebar_char (b : Nat) : Char :=
  if b > 31 ∧ b < 127 then Char.ofNat b else '.'

/-- The inner byte loop of the array-literal output mode of `run`: for
each byte of a line, `i` is incremented first, and then the byte's token
is the bare `hex_lower_hex` token when `i == buf_len && array_format != "g"`
and `hex_lower_hex` followed by `", "` otherwise.  Returns the tokens of
the line and the final value of `i`. -/
def array_line_tokens (buf_len : Nat) (array_format : String) :
    List Nat → Nat → List String × Nat
  | [], i => ([], i)
  | h :: rest, i =>
    let tok :=
      if i + 1 = buf_len ∧ array_format ≠ "g" then hex_lower_hex h
      else hex_lower_hex h ++ ", "
    let r := array_line_tokens buf_len array_format rest (i + 1)
    (tok :: r.1, r.2)

/-- The outer line loop of the array-literal output mode of `run`: the
per-byte tokens of every line of the page body in order, with the
counter `i` threaded across lines (starting from 0).  The constant
indent and line-break writes are not part of the token stream. -/
def array_body_tokens (buf_len : Nat) (array_format : String) :
    List Line → Nat → List String
  | [], _ => []
  | l :: rest, i =>
    let r := array_line_tokens buf_len array_format l.hex_body i
    r.1 ++ array_body_tokens buf_len array_format rest r.2

/-- Octal digit character test, for stating the shape of `hex_octal`. -/
def is_oct_digit (c : Char) : Bool := '0' ≤ c ∧ c ≤ '7'

/-- Binary digit character test, for stating the shape of `hex_binary`. -/
def is_bin_digit (c : Char) : Bool := c = '0' ∨ c = '1'

/-- Lowercase hexadecimal digit character test, for stating the shape of
`hex_lower_hex`. -/
def is_lower_hex_digit (c : Char) : Bool := ('0' ≤ c ∧ c ≤ '9') ∨ ('a' ≤ c ∧ c ≤ 'f')

/-- Uppercase hexadecimal digit character test, for stating the shape of
`hex_upper_hex`. -/
def is_upper_hex_digit (c : Char) : Bool := ('0' ≤ c ∧ c ≤ '9') ∨ ('A' ≤ c ∧ c ≤ 'F')

/- Invariants of the paginator loop: every pushed line stores a byte
count equal to the length of its raw-byte vector, and the page byte
count grows by exactly one per consumed source byte. -/
theorem buf_to_array_loop_invariant (cw bl : Nat) :
    ∀ (src : List Nat) (cc : Nat) (page : Page) (line : Line),
      (∀ l ∈ page.body, l.bytes = l.hex_body.length) →
      line.bytes = line.hex_body.length →
      (∀ l ∈ (buf_to_array_loop cw bl src cc page line).1.body,
          l.bytes = l.hex_body.length) ∧
      (buf_to_array_loop cw bl src cc page line).1.bytes +
          (buf_to_array_loop cw bl src cc page line).2.length =
        page.bytes + src.length := by
  intro src
  induction src with
  | nil =>
    intro cc page line hpage hline
    exact ⟨hpage, rfl⟩
  | cons b rest ih =>
    intro cc page line hpage hline
    have hline1 : (⟨line.offset, line.hex_body ++ [b], line.ascii, line.bytes + 1⟩ : Line).bytes
        = (⟨line.offset, line.hex_body ++ [b], line.ascii, line.bytes + 1⟩ : Line).hex_body.length := by
      simp [hline]
    simp only [buf_to_array_loop]
    split_ifs with hcol hbrk hbrk
    · refine ⟨?_, ?_⟩
      · intro l hl
        simp only [List.mem_append, List.mem_singleton] at hl
        rcases hl with (hl | rfl) | rfl
        · exact hpage l hl
        · exact hline1
        · rfl
      · show page.bytes + 1 + rest.length = page.bytes + (b :: rest).length
        simp only [List.length_cons]
        omega
    · have harg : ∀ l ∈ (⟨page.offset,
          page.body ++ [⟨line.offset, line.hex_body ++ [b], line.ascii, line.bytes + 1⟩],
          page.bytes + 1⟩ : Page).body, l.bytes = l.hex_body.length := by
        intro l hl
        simp only [List.mem_append, List.mem_singleton] at hl
        rcases hl with hl | rfl
        · exact hpage l hl
        · exact hline1
      have h := ih 0 ⟨page.offset,
          page.body ++ [⟨line.offset, line.hex_body ++ [b], line.ascii, line.bytes + 1⟩],
          page.bytes + 1⟩ Line.new harg rfl
      refine ⟨h.1, ?_⟩
      rw [h.2]
      show page.bytes + 1 + rest.length = page.bytes + (b :: rest).length
      simp only [List.length_cons]
      omega
    · refine ⟨?_, ?_⟩
      · intro l hl
        simp only [List.mem_append, List.mem_singleton] at hl
        rcases hl with hl | rfl
        · exact hpage l hl
        · exact hline1
      · show page.bytes + 1 + rest.length = page.bytes + (b :: rest).length
        simp only [List.length_cons]
        omega
    · have h := ih (cc + 1) ⟨page.offset, page.body, page.bytes + 1⟩
        ⟨line.offset, line.hex_body ++ [b], line.ascii, line.bytes + 1⟩ hpage hline1
      refine ⟨h.1, ?_⟩
      rw [h.2]
      show page.bytes + 1 + rest.length = page.bytes + (b :: rest).length
      simp only [List.length_cons]
      omega

/- The page byte count plus the length of the unread remainder equals the
source length: `page.bytes` counts exactly the consumed bytes. -/
theorem buf_to_array_consumed (src : List Nat) (bl cw : Nat) :
    (buf_to_array src bl cw).1.bytes + (buf_to_array src bl cw).2.length = src.length := by
  have h := buf_to_array_loop_invariant cw bl src 0 Page.new Line.new
    (by intro l hl; simp [Page.new] at hl) rfl
  simpa [buf_to_array, Page.new] using h.2

/- The second component returned by the byte-token loop is the entry
counter advanced by the number of bytes of the line. -/
theorem array_line_tokens_snd (bl : Nat) (fmt : String) :
    ∀ (xs : List Nat) (i : Nat), (array_line_tokens bl fmt xs i).2 = i + xs.length := by
  intro xs
  induction xs with
  | nil => intro i; rfl
  | cons h rest ih =>
    intro i
    simp only [array_line_tokens]
    rw [ih]
    simp only [List.length_cons]
    omega

/- One token is emitted per byte of the line. -/
theorem array_line_tokens_length (bl : Nat) (fmt : String) :
    ∀ (xs : List Nat) (i : Nat), (array_line_tokens bl fmt xs i).1.length = xs.length := by
  intro xs
  induction xs with
  | nil => intro i; rfl
  | cons h rest ih =>
    intro i
    simp only [array_line_tokens, List.length_cons]
    rw [ih]

/- Token emission over a concatenation splits with the counter advanced
by the length of the first part. -/
theorem array_line_tokens_append (bl : Nat) (fmt : String) :
    ∀ (xs ys : List Nat) (i : Nat),
      (array_line_tokens bl fmt (xs ++ ys) i).1 =
        (array_line_tokens bl fmt xs i).1 ++ (array_line_tokens bl fmt ys (i + xs.length)).1 := by
  intro xs
  induction xs with
  | nil => intro ys i; simp [array_line_tokens]
  | cons h rest ih =>
    intro ys i
    simp only [List.cons_append, array_line_tokens, List.length_cons, List.append_eq]
    rw [ih]
    have hidx : i + 1 + rest.length = i + (rest.length + 1) := by omega
    rw [hidx]

/- The token of the byte at index `j` of a line, when the counter starts
at `i`: the bare hex token exactly when the running counter value
`i + j + 1` equals `buf_len` and the format is not `"g"`. -/
theorem array_line_tokens_getD (bl : Nat) (fmt : String) :
    ∀ (xs : List Nat) (i j : Nat), j < xs.length →
      ((array_line_tokens bl fmt xs i).1).getD j "" =
        (if i + j + 1 = bl ∧ fmt ≠ "g" then hex_lower_hex (xs.getD j 0)
         else hex_lower_hex (xs.getD j 0) ++ ", ") := by
  intro xs
  induction xs with
  | nil => intro i j hj; simp at hj
  | cons h rest ih =>
    intro i j hj
    cases j with
    | zero => simp [array_line_tokens]
    | succ j =>
      simp only [array_line_tokens, List.getD_cons_succ]
      rw [ih (i + 1) j (by simpa using hj)]
      have hidx : i + 1 + j + 1 = i + (j + 1) + 1 := by omega
      rw [hidx]

/- Threading the counter across the lines of the page body emits the
same tokens as one pass over the flattened byte sequence. -/
theorem array_body_tokens_eq_flatten (bl : Nat) (fmt : String) :
    ∀ (body : List Line) (i : Nat),
      array_body_tokens bl fmt body i =
        (array_line_tokens bl fmt (body.map Line.hex_body).flatten i).1 := by
  intro body
  induction body with
  | nil => intro i; rfl
  | cons l rest ih =>
    intro i
    simp only [array_body_tokens, List.map_cons, List.flatten_cons]
    rw [array_line_tokens_append, ih, array_line_tokens_snd]

/-- C1: the claim states that `buf_to_array` consumes exactly
`min(requested_length, available_source_length, 65535)` bytes, with a
hard 65,535-byte ceiling.  The code instead compares `buf_len` itself
against `<u16>::max_value()`: evaluated at a 3-byte source with
`buf_len = 65535` (and `column_width = 10`), the loop stops after a
single byte, so `total_bytes = 1` while the claimed minimum is 3 — and
dually no ceiling ever applies when `buf_len ≠ 65535`, so a 70,000-byte
source with `buf_len = 70000` yields 70,000 bytes, not 65,535. -/
theorem claim_C1_ceiling_code_bug :
    (buf_to_array [1, 2, 3] 65535 10).1.bytes = 1 ∧
    (1 : Nat) ≠ min 65535 (min 3 65535) := by decide

/-- C2: the claim states that when the source is exhausted before either
limit, the non-empty in-progress row is still closed and appended and no
consumed byte is absent from the rows.  Evaluated at source `[1, 2, 3]`
with `buf_len = 10` and `column_width = 4`: the loop ends at end of
input without pushing the in-progress row, leaving `body = []` even
though `total_bytes = 3`, so all three consumed bytes are absent from
the grid's rows. -/
theorem claim_C2_dropped_row_code_bug :
    (buf_to_array [1, 2, 3] 10 4).1.body = [] ∧
    (buf_to_array [1, 2, 3] 10 4).1.bytes = 3 := by decide

/-- C3: the claim states that with the limits not binding, `n` bytes
partition into exactly `ceil(n / column_width)` rows whose byte counts
sum to `n`.  Evaluated at `n = 3` bytes, `requested_length = 10`,
`column_width = 2` (so `n = min(n, 10, 65535)`): the code produces one
row holding 2 bytes — the trailing partial row is dropped at end of
input — while the claim requires `ceil(3 / 2) = 2` rows summing to 3. -/
theorem claim_C3_row_count_code_bug :
    (buf_to_array [1, 2, 3] 10 2).1.body.length = 1 ∧
    (1 : Nat) ≠ (3 + 2 - 1) / 2 ∧
    ((buf_to_array [1, 2, 3] 10 2).1.body.map Line.bytes).sum = 2 ∧
    (2 : Nat) ≠ min 3 (min 10 65535) := by decide

/-- C4: the claim states that `requested_length = 0` produces an empty
grid for every source.  The stop check `page.bytes == buf_len` runs only
after a byte has been consumed, so with `buf_len = 0` it never fires and
the whole source is read: on source `[7, 7]` with `column_width = 1` the
code yields `total_bytes = 2` and two rows, not an empty grid. -/
theorem claim_C4_zero_length_code_bug :
    (buf_to_array [7, 7] 0 1).1.bytes = 2 ∧
    (buf_to_array [7, 7] 0 1).1.body.length = 2 := by decide

/-- C5: the claim states that no row of a produced grid is empty (the
last row has byte count in `[1, column_width]`).  Evaluated at source
`[1, 2]` with `buf_len = 2` and `column_width = 2`: the byte limit is
reached exactly at a column boundary, and the code pushes the freshly
created empty line as well, so the grid ends with a row of byte count 0. -/
theorem claim_C5_empty_last_row_code_bug :
    (buf_to_array [1, 2] 2 2).1.body = [⟨0, [1, 2], [], 2⟩, Line.new] ∧
    Line.new.bytes = 0 := by decide

/-- C6: for every byte `b`, the ASCII sidebar maps `b` to its own
character if and only if `b > 31` and `b < 127`, and to `'.'` otherwise;
in particular byte 32 (space) renders as itself and bytes 9 and 127
render as `'.'`. -/
theorem claim_C6_sidebar :
    (∀ b : Nat, b < 256 →
      ((sidebar_char b = Char.ofNat b ↔ 31 < b ∧ b < 127) ∧
        (¬ (31 < b ∧ b < 127) → sidebar_char b = '.'))) ∧
    sidebar_char 32 = ' ' ∧ sidebar_char 9 = '.' ∧ sidebar_char 127 = '.' := by decide

/-- C6 witness: the classification applied at the concrete byte 65. -/
theorem claim_C6_sidebar_witness : sidebar_char 65 = Char.ofNat 65 :=
  (claim_C6_sidebar.1 65 (by decide)).1.mpr (by decide)

/-- C7: for every byte, the codec renders fixed-width zero-padded
tokens — `0o` plus 4 octal digits, `0x` plus 2 lowercase hex digits,
`0x` plus 2 uppercase hex digits, `0b` plus 8 binary digits — and in
particular byte `0x06` gives `0o0006` / `0x06` / `0x06` / `0b00000110`
and byte `0xFF` gives `0xff` / `0xFF` / `0b11111111`. -/
theorem claim_C7_codec :
    (∀ b : Nat, b < 256 →
      ((hex_octal b).data.length = 6 ∧ (hex_octal b).data.take 2 = ['0', 'o'] ∧
        ((hex_octal b).data.drop 2).all is_oct_digit = true) ∧
      ((hex_lower_hex b).data.length = 4 ∧ (hex_lower_hex b).data.take 2 = ['0', 'x'] ∧
        ((hex_lower_hex b).data.drop 2).all is_lower_hex_digit = true) ∧
      ((hex_upper_hex b).data.length = 4 ∧ (hex_upper_hex b).data.take 2 = ['0', 'x'] ∧
        ((hex_upper_hex b).data.drop 2).all is_upper_hex_digit = true) ∧
      ((hex_binary b).data.length = 10 ∧ (hex_binary b).data.take 2 = ['0', 'b'] ∧
        ((hex_binary b).data.drop 2).all is_bin_digit = true)) ∧
    hex_octal 6 = "0o0006" ∧ hex_lower_hex 6 = "0x06" ∧ hex_upper_hex 6 = "0x06" ∧
    hex_binary 6 = "0b00000110" ∧
    hex_lower_hex 255 = "0xff" ∧ hex_upper_hex 255 = "0xFF" ∧
    hex_binary 255 = "0b11111111" := by decide

/-- C7 witness: the token shape applied at the concrete byte 255. -/
theorem claim_C7_codec_witness : (hex_octal 255).data.length = 6 :=
  (claim_C7_codec.1 255 (by decide)).1.1

/-- C8 counterexample: the claim states that the globally last emitted
byte omits the trailing comma for array formats `r` and `c`, including
when `requested_length` exceeds the number of bytes in the grid.  For
the grid built from source `[1, 2, 3]` with `buf_len = 10` and
`column_width = 2`, rendered with format `r`: the code compares the
running byte index against `buf_len` (never reached), so the last
emitted token is `"0x02, "`, not the bare token. -/
theorem claim_C8_trailing_comma_counterexample :
    array_body_tokens 10 "r" (buf_to_array [1, 2, 3] 10 2).1.body 0 =
      ["0x01, ", "0x02, "] ∧
    (array_body_tokens 10 "r" (buf_to_array [1, 2, 3] 10 2).1.body 0).getLast? ≠
      some (hex_lower_hex 2) := by decide

/-- C8 (amended): in array-literal mode one token is emitted per grid
byte, and the token of the byte at global 0-based position `j` is the
bare `hex_lower_hex` token exactly when `j + 1 = requested_length` and
the format is not `g`, and the `hex_lower_hex` token followed by `", "`
otherwise.  In particular, when `requested_length` differs from every
byte index — e.g. exceeds the number of bytes in the grid — every byte,
including the globally last, keeps its trailing comma for all formats. -/
theorem claim_C8_amended (body : List Line) (buf_len : Nat) (array_format : String) :
    (array_body_tokens buf_len array_format body 0).length =
      (body.map Line.hex_body).flatten.length ∧
    ∀ j : Nat, j < (body.map Line.hex_body).flatten.length →
      (array_body_tokens buf_len array_format body 0).getD j "" =
        (if j + 1 = buf_len ∧ array_format ≠ "g"
         then hex_lower_hex ((body.map Line.hex_body).flatten.getD j 0)
         else hex_lower_hex ((body.map Line.hex_body).flatten.getD j 0) ++ ", ") := by
  rw [array_body_tokens_eq_flatten]
  refine ⟨array_line_tokens_length buf_len array_format _ 0, ?_⟩
  intro j hj
  rw [array_line_tokens_getD buf_len array_format _ 0 j hj]
  simp only [Nat.zero_add]

/-- C8 witness: the amended token rule applied to a concrete one-line
grid of three bytes with `requested_length = 3` and format `r`, at the
last byte. -/
theorem claim_C8_amended_witness :
    (array_body_tokens 3 "r" [⟨0, [1, 2, 3], [], 3⟩] 0).getD 2 "" =
      (if 2 + 1 = 3 ∧ "r" ≠ "g"
       then hex_lower_hex ((([⟨0, [1, 2, 3], [], 3⟩] : List Line).map Line.hex_body).flatten.getD 2 0)
       else hex_lower_hex ((([⟨0, [1, 2, 3], [], 3⟩] : List Line).map Line.hex_body).flatten.getD 2 0) ++ ", ") :=
  (claim_C8_amended [⟨0, [1, 2, 3], [], 3⟩] 3 "r").2 2 (by decide)

/-- C9: the claim states that a read error makes the partition operation
return the I/O failure.  The loop instead calls `b.unwrap()` on every
read result: on a source whose first read fails it panics (modelled as
`none`) rather than returning an `Error::Io` value, while on an
error-free source it returns the grid — no error value is ever
returned, contradicting the claimed error propagation despite the
function's `Result<Page>` signature. -/
theorem claim_C9_panic_code_bug :
    buf_to_array_io [Except.error ()] 5 10 = none ∧
    buf_to_array_io [Except.ok 1, Except.ok 2] 2 10 =
      some ((buf_to_array [1, 2] 2 10).1, []) :=
  ⟨rfl, rfl⟩

/-- C10: in every grid produced by `buf_to_array`, every row stores a
byte count equal to the length of its raw-byte vector, and the grid's
`bytes` field equals the number of bytes consumed from the source (the
source length minus the unread remainder). -/
theorem claim_C10_accounting (src : List Nat) (buf_len column_width : Nat) :
    (∀ l ∈ (buf_to_array src buf_len column_width).1.body,
        l.bytes = l.hex_body.length) ∧
    (buf_to_array src buf_len column_width).1.bytes =
      src.length - (buf_to_array src buf_len column_width).2.length := by
  have h := buf_to_array_loop_invariant column_width buf_len src 0 Page.new Line.new
    (by intro l hl; simp [Page.new] at hl) rfl
  have hc := buf_to_array_consumed src buf_len column_width
  exact ⟨h.1, by omega⟩

/-- C10 witness: the accounting applied at the concrete source
`[1, 2, 3]` with `buf_len = 10` and `column_width = 2`. -/
theorem claim_C10_accounting_witness :
    (buf_to_array [1, 2, 3] 10 2).1.bytes =
      ([1, 2, 3] : List Nat).length - (buf_to_array [1, 2, 3] 10 2).2.length :=
  (claim_C10_accounting [1, 2, 3] 10 2).2

end Hex
